import Mathlib

/-!
Verification of the scroll-driven particle animation in `src/main.js`:
the vertex-shader transform pipeline (phase scheduling, wave motion,
placement, assembly), the render-mode hysteresis state machine, the
secondary rotation curves, dataset construction, and particle
regeneration.  GLSL floats are modelled as real numbers; the host-side
scroll/render-mode arithmetic, which only ever uses rational constants,
is modelled over `ℚ` so that concrete runs are decidable.
-/

namespace Fivr

/-- GLSL `clamp(x, lo, hi) = min(max(x, lo), hi)`. -/
noncomputable def glslClamp (x lo hi : ℝ) : ℝ := min (max x lo) hi

/-- GLSL `mix(x, y, a) = x*(1-a) + y*a`. -/
noncomputable def glslMix (x y a : ℝ) : ℝ := x * (1 - a) + y * a

/-- The cubic Hermite polynomial `t*t*(3-2*t)` used by `smoothstep`. -/
noncomputable def hermite01 (t : ℝ) : ℝ := t * t * (3 - 2 * t)

/-- GLSL `smoothstep(e0, e1, x)`: clamp `(x-e0)/(e1-e0)` to `[0,1]`,
then apply the cubic Hermite `t*t*(3-2*t)`. -/
noncomputable def smoothstep (e0 e1 x : ℝ) : ℝ :=
  hermite01 (glslClamp ((x - e0) / (e1 - e0)) 0 1)

/-- 3-component vector of reals (GLSL `vec3`). -/
structure Vec3 where
  x : ℝ
  y : ℝ
  z : ℝ

/-- Componentwise vector addition. -/
noncomputable def Vec3.add (a b : Vec3) : Vec3 := ⟨a.x + b.x, a.y + b.y, a.z + b.z⟩

/-- Scalar times vector. -/
noncomputable def Vec3.scale (s : ℝ) (a : Vec3) : Vec3 := ⟨s * a.x, s * a.y, s * a.z⟩

/-- GLSL `mix` on vectors, componentwise. -/
noncomputable def glslMix3 (a b : Vec3) (t : ℝ) : Vec3 :=
  ⟨glslMix a.x b.x t, glslMix a.y b.y t, glslMix a.z b.z t⟩

/-! ## Phase scheduler (vertex shader, lines 152-161)

`noiseOrigin = simplexNoise3d(position * 0.2)`,
`noiseTarget = simplexNoise3d(aPositionTarget * 0.2)`,
`noise = smoothstep(-1, 1, mix(noiseOrigin, noiseTarget, uProgress))`,
`duration = 0.4`, `delay = (1 - duration) * noise * 1.2`,
`end = delay + duration`.

`simplexNoise3d` is GLSL text injected from the page
(`document.querySelector("#noise").textContent`), not part of `src/`,
so it is kept abstract: every theorem below quantifies over it. -/

/-- The remapped per-particle noise value `noise` after the
`smoothstep(-1.0, 1.0, ...)` S-curve. -/
noncomputable def noiseOf (simplexNoise3d : Vec3 → ℝ) (position aPositionTarget : Vec3)
    (uProgress : ℝ) : ℝ :=
  smoothstep (-1) 1
    (glslMix (simplexNoise3d (Vec3.scale 0.2 position))
      (simplexNoise3d (Vec3.scale 0.2 aPositionTarget)) uProgress)

/-- `float duration = 0.4;` -/
noncomputable def duration : ℝ := 0.4

/-- `float delay = (1.0 - duration) * noise * 1.2;` -/
noncomputable def delayOf (noise : ℝ) : ℝ := (1 - duration) * noise * 1.2

/-- `float end = delay + duration;` -/
noncomputable def endOf (noise : ℝ) : ℝ := delayOf noise + duration

/-! ### Basic smoothstep facts -/

theorem glslClamp01_mem (x : ℝ) :
    0 ≤ glslClamp x 0 1 ∧ glslClamp x 0 1 ≤ 1 := by
  unfold glslClamp
  constructor
  · exact le_min (le_max_right x 0) zero_le_one
  · exact min_le_right _ _

theorem hermite_mem {t : ℝ} (h0 : 0 ≤ t) (h1 : t ≤ 1) :
    0 ≤ t * t * (3 - 2 * t) ∧ t * t * (3 - 2 * t) ≤ 1 := by
  constructor
  · have : (0:ℝ) ≤ 3 - 2 * t := by linarith
    positivity
  · nlinarith [sq_nonneg (1 - t), sq_nonneg t]

theorem smoothstep_mem (e0 e1 x : ℝ) :
    0 ≤ smoothstep e0 e1 x ∧ smoothstep e0 e1 x ≤ 1 := by
  unfold smoothstep hermite01
  have h := glslClamp01_mem ((x - e0) / (e1 - e0))
  exact hermite_mem h.1 h.2

theorem hermite_mono {a b : ℝ} (h0 : 0 ≤ a) (hab : a ≤ b) (h1 : b ≤ 1) :
    a * a * (3 - 2 * a) ≤ b * b * (3 - 2 * b) := by
  nlinarith [mul_nonneg h0 (sub_nonneg.2 hab), mul_nonneg (sub_nonneg.2 hab) (sub_nonneg.2 h1),
    mul_nonneg h0 (sub_nonneg.2 h1), sq_nonneg (a - b), sq_nonneg (a + b)]

theorem glslClamp01_mono {x y : ℝ} (h : x ≤ y) :
    glslClamp x 0 1 ≤ glslClamp y 0 1 := by
  unfold glslClamp
  exact min_le_min (max_le_max h le_rfl) le_rfl

theorem smoothstep_mono {e0 e1 : ℝ} (he : e0 < e1) {x y : ℝ} (hxy : x ≤ y) :
    smoothstep e0 e1 x ≤ smoothstep e0 e1 y := by
  unfold smoothstep hermite01
  have hd : (0:ℝ) < e1 - e0 := by linarith
  have harg : (x - e0) / (e1 - e0) ≤ (y - e0) / (e1 - e0) :=
    div_le_div_of_nonneg_right (by linarith) hd.le
  have ht := glslClamp01_mono harg
  have h1 := glslClamp01_mem ((x - e0) / (e1 - e0))
  have h2 := glslClamp01_mem ((y - e0) / (e1 - e0))
  exact hermite_mono h1.1 ht h2.2

theorem smoothstep_of_le {e0 e1 : ℝ} (he : e0 < e1) {x : ℝ} (hx : x ≤ e0) :
    smoothstep e0 e1 x = 0 := by
  unfold smoothstep hermite01 glslClamp
  have hd : (0:ℝ) < e1 - e0 := by linarith
  have harg : (x - e0) / (e1 - e0) ≤ 0 := by
    apply div_nonpos_of_nonpos_of_nonneg <;> linarith
  rw [max_eq_right harg, min_eq_left zero_le_one]
  ring

theorem smoothstep_of_ge {e0 e1 : ℝ} (he : e0 < e1) {x : ℝ} (hx : e1 ≤ x) :
    smoothstep e0 e1 x = 1 := by
  unfold smoothstep hermite01 glslClamp
  have hd : (0:ℝ) < e1 - e0 := by linarith
  have harg : (1:ℝ) ≤ (x - e0) / (e1 - e0) := by
    rw [le_div_iff₀ hd]; linarith
  have hmax : max ((x - e0) / (e1 - e0)) 0 = (x - e0) / (e1 - e0) :=
    max_eq_left (by linarith)
  rw [hmax, min_eq_right harg]
  ring

/-! ## Motion blender: wave, placement, assembly (vertex shader, lines 163-223) -/

/-- The shader uniforms taking part in the position pipeline
(`uProgress`, `uTime`, the wave offsets and the wave rotations). -/
structure Uniforms where
  uProgress : ℝ
  uTime : ℝ
  uWaveOffsetX : ℝ
  uWaveOffsetY : ℝ
  uWaveOffsetZ : ℝ
  uWaveRotationX : ℝ
  uWaveRotationY : ℝ
  uWaveRotationZ : ℝ

/-- 3x3 matrix of reals (GLSL `mat3`), stored by rows. -/
structure Mat3 where
  m00 : ℝ
  m01 : ℝ
  m02 : ℝ
  m10 : ℝ
  m11 : ℝ
  m12 : ℝ
  m20 : ℝ
  m21 : ℝ
  m22 : ℝ

/-- GLSL `mat3(a,b,c, d,e,f, g,h,i)` constructor: the nine scalars fill
the matrix column by column (column-major), so `(a,b,c)` is the first
column. -/
noncomputable def glslMat3 (a b c d e f g h i : ℝ) : Mat3 :=
  ⟨a, d, g, b, e, h, c, f, i⟩

/-- Matrix-times-vector, `M * v` in GLSL. -/
noncomputable def mulVecM (M : Mat3) (v : Vec3) : Vec3 :=
  ⟨M.m00 * v.x + M.m01 * v.y + M.m02 * v.z,
   M.m10 * v.x + M.m11 * v.y + M.m12 * v.z,
   M.m20 * v.x + M.m21 * v.y + M.m22 * v.z⟩

/-- Matrix product, `A * B` in GLSL. -/
noncomputable def matMul (A B : Mat3) : Mat3 :=
  ⟨A.m00 * B.m00 + A.m01 * B.m10 + A.m02 * B.m20,
   A.m00 * B.m01 + A.m01 * B.m11 + A.m02 * B.m21,
   A.m00 * B.m02 + A.m01 * B.m12 + A.m02 * B.m22,
   A.m10 * B.m00 + A.m11 * B.m10 + A.m12 * B.m20,
   A.m10 * B.m01 + A.m11 * B.m11 + A.m12 * B.m21,
   A.m10 * B.m02 + A.m11 * B.m12 + A.m12 * B.m22,
   A.m20 * B.m00 + A.m21 * B.m10 + A.m22 * B.m20,
   A.m20 * B.m01 + A.m21 * B.m11 + A.m22 * B.m21,
   A.m20 * B.m02 + A.m21 * B.m12 + A.m22 * B.m22⟩

/-- `rotateX` from the vertex shader:
`mat3(1,0,0, 0,c,-s, 0,s,c)` with `s = sin(angle)`, `c = cos(angle)`. -/
noncomputable def rotateX (angle : ℝ) : Mat3 :=
  glslMat3 1 0 0 0 (Real.cos angle) (-Real.sin angle) 0 (Real.sin angle) (Real.cos angle)

/-- `rotateY` from the vertex shader: `mat3(c,0,s, 0,1,0, -s,0,c)`. -/
noncomputable def rotateY (angle : ℝ) : Mat3 :=
  glslMat3 (Real.cos angle) 0 (Real.sin angle) 0 1 0 (-Real.sin angle) 0 (Real.cos angle)

/-- `rotateZ` from the vertex shader: `mat3(c,-s,0, s,c,0, 0,0,1)`. -/
noncomputable def rotateZ (angle : ℝ) : Mat3 :=
  glslMat3 (Real.cos angle) (-Real.sin angle) 0 (Real.sin angle) (Real.cos angle) 0 0 0 1

/-- `float waveStrength = 1.0 - smoothstep(0.0, 0.3, uProgress);` -/
noncomputable def waveStrengthOf (uProgress : ℝ) : ℝ := 1 - smoothstep 0 0.3 uProgress

/-- The ambient wave displacement `vec3(waveX, waveY, waveZ)`
(vertex shader, lines 173-192), a sum of sine/cosine terms of the
original position and `uTime`. -/
noncomputable def waveDisplacementOf (waveBasePos : Vec3) (uTime : ℝ) : Vec3 :=
  let waveX1 := Real.sin (waveBasePos.x * 2.0 + uTime * 0.5) * 0.08
  let waveX2 := Real.sin (waveBasePos.z * 1.5 + uTime * 0.7) * 0.06
  let waveX := waveX1 + waveX2
  let waveY := Real.cos (waveBasePos.z * 3.0 + uTime * 0.7) * 0.04
  let waveZ1 := Real.sin (waveBasePos.x * 2.5 + waveBasePos.z * 2.0 + uTime * 0.6) * 0.04
  let waveZ2 := Real.cos (waveBasePos.x * 1.7 + uTime * 0.4) * 0.05
  ⟨waveX, waveY, waveZ1 + waveZ2⟩

/-- `mat3 rotMatrix = rotateZ(uWaveRotationZ) * rotateY(uWaveRotationY) * rotateX(uWaveRotationX);`
(GLSL `*` is left-associative). -/
noncomputable def rotMatrixOf (u : Uniforms) : Mat3 :=
  matMul (matMul (rotateZ u.uWaveRotationZ) (rotateY u.uWaveRotationY))
    (rotateX u.uWaveRotationX)

/-- The offset vector `(uWaveOffsetX, uWaveOffsetY, uWaveOffsetZ)` added
componentwise at lines 201-203. -/
noncomputable def offsetVecOf (u : Uniforms) : Vec3 :=
  ⟨u.uWaveOffsetX, u.uWaveOffsetY, u.uWaveOffsetZ⟩

/-- `staticPosition` after wave displacement, offset and rotation
(vertex shader, lines 163-207). -/
noncomputable def staticPositionOf (u : Uniforms) (position : Vec3) : Vec3 :=
  let waveStrength := waveStrengthOf u.uProgress
  let staticPosition :=
    Vec3.add position (Vec3.scale waveStrength (waveDisplacementOf position u.uTime))
  mulVecM (rotMatrixOf u) (Vec3.add staticPosition (offsetVecOf u))

/-- `float assemblyProgress = smoothstep(delay, end, uProgress);` -/
noncomputable def assemblyProgressOf (simplexNoise3d : Vec3 → ℝ)
    (position aPositionTarget : Vec3) (uProgress : ℝ) : ℝ :=
  let noise := noiseOf simplexNoise3d position aPositionTarget uProgress
  smoothstep (delayOf noise) (endOf noise) uProgress

/-- `vec3 finalPosition = mix(staticPosition, targetPosition, assemblyProgress);` -/
noncomputable def finalPositionOf (simplexNoise3d : Vec3 → ℝ) (u : Uniforms)
    (position aPositionTarget : Vec3) : Vec3 :=
  glslMix3 (staticPositionOf u position) aPositionTarget
    (assemblyProgressOf simplexNoise3d position aPositionTarget u.uProgress)

theorem glslMix3_one (a b : Vec3) : glslMix3 a b 1 = b := by
  cases b
  simp only [glslMix3, glslMix, Vec3.mk.injEq]
  refine ⟨by ring, by ring, by ring⟩

theorem delayOf_lt_endOf (n : ℝ) : delayOf n < endOf n := by
  unfold endOf duration; norm_num

/-- C1: for every particle whose phase window satisfies `end <= 1`,
the position pipeline at `uProgress = 1` returns exactly the target
position of that particle, for every `uTime` and every noise function, and the
ambient wave strength `1 - smoothstep(0, 0.3, uProgress)` is exactly `0`
at `uProgress = 1`. -/
theorem progress_one_reaches_target (simplexNoise3d : Vec3 → ℝ)
    (uTime ox oy oz rx ry rz : ℝ) (position aPositionTarget : Vec3)
    (hend : endOf (noiseOf simplexNoise3d position aPositionTarget 1) ≤ 1) :
    waveStrengthOf 1 = 0 ∧
    finalPositionOf simplexNoise3d ⟨1, uTime, ox, oy, oz, rx, ry, rz⟩
      position aPositionTarget = aPositionTarget := by
  constructor
  · unfold waveStrengthOf
    rw [smoothstep_of_ge (by norm_num) (by norm_num)]
    ring
  · unfold finalPositionOf assemblyProgressOf
    have h1 : smoothstep (delayOf (noiseOf simplexNoise3d position aPositionTarget 1))
        (endOf (noiseOf simplexNoise3d position aPositionTarget 1)) 1 = 1 :=
      smoothstep_of_ge (delayOf_lt_endOf _) hend
    simp only [h1]
    exact glslMix3_one _ _

/-- Witness for C1: the constant-zero noise function gives the phase
window `delay = 0.36`, `end = 0.76 <= 1`, and the pipeline at
`uProgress = 1` lands exactly on the target `(1, 2, 3)`. -/
theorem progress_one_reaches_target_witness :
    endOf (noiseOf (fun _ => 0) ⟨0, 0, 0⟩ ⟨1, 2, 3⟩ 1) ≤ 1 ∧
    finalPositionOf (fun _ => 0) ⟨1, 0, 0, 0, 0, 0, 0, 0⟩ ⟨0, 0, 0⟩ ⟨1, 2, 3⟩ = ⟨1, 2, 3⟩ := by
  have hend : endOf (noiseOf (fun _ => 0) ⟨0, 0, 0⟩ ⟨1, 2, 3⟩ 1) ≤ 1 := by
    norm_num [endOf, delayOf, duration, noiseOf, glslMix, smoothstep, hermite01, glslClamp,
      min_def, max_def]
  exact ⟨hend, (progress_one_reaches_target (fun _ => 0) 0 0 0 0 0 0 0 ⟨0, 0, 0⟩ ⟨1, 2, 3⟩ hend).2⟩

/-- C2: the phase window is `n = smoothstep(-1, 1, mix(noise(o*0.2), noise(t*0.2), p))`,
`duration = 0.4`, `delay = (1-duration)*n*1.2`, `end = delay + duration`;
`delay` always lies in `[0, 0.72]` and `end` in `[0.4, 1.12]`, and `end`
exceeds `1` for high-noise particles. -/
theorem phase_window_spec :
    duration = 0.4 ∧
    (∀ n : ℝ, delayOf n = (1 - duration) * n * 1.2 ∧ endOf n = delayOf n + duration) ∧
    (∀ (simplexNoise3d : Vec3 → ℝ) (position aPositionTarget : Vec3) (p : ℝ),
      0 ≤ delayOf (noiseOf simplexNoise3d position aPositionTarget p) ∧
      delayOf (noiseOf simplexNoise3d position aPositionTarget p) ≤ 0.72 ∧
      0.4 ≤ endOf (noiseOf simplexNoise3d position aPositionTarget p) ∧
      endOf (noiseOf simplexNoise3d position aPositionTarget p) ≤ 1.12) ∧
    (∃ (simplexNoise3d : Vec3 → ℝ) (position aPositionTarget : Vec3) (p : ℝ),
      1 < endOf (noiseOf simplexNoise3d position aPositionTarget p)) := by
  refine ⟨rfl, fun n => ⟨rfl, rfl⟩, ?_, ?_⟩
  · intro simplexNoise3d position aPositionTarget p
    have h := smoothstep_mem (-1) 1
      (glslMix (simplexNoise3d (Vec3.scale 0.2 position))
        (simplexNoise3d (Vec3.scale 0.2 aPositionTarget)) p)
    have h' : 0 ≤ noiseOf simplexNoise3d position aPositionTarget p ∧
        noiseOf simplexNoise3d position aPositionTarget p ≤ 1 := h
    unfold endOf delayOf duration
    constructor
    · nlinarith [h'.1]
    constructor
    · nlinarith [h'.2]
    constructor
    · nlinarith [h'.1]
    · nlinarith [h'.2]
  · refine ⟨fun _ => 1, ⟨0, 0, 0⟩, ⟨0, 0, 0⟩, 0, ?_⟩
    have hn : noiseOf (fun _ => 1) ⟨0, 0, 0⟩ ⟨0, 0, 0⟩ 0 = 1 := by
      unfold noiseOf
      have hmix : glslMix 1 1 0 = 1 := by unfold glslMix; ring
      rw [hmix]
      exact smoothstep_of_ge (by norm_num) le_rfl
    rw [hn]
    unfold endOf delayOf duration
    norm_num

/-- C3: for a fixed window `delay < end`, the assembly curve
`smoothstep(delay, end, progress)` is monotone non-decreasing in
`progress`, equal to `0` for `progress <= delay` and to `1` for
`progress >= end`. -/
theorem assembly_progress_monotone (delay endv : ℝ) (hde : delay < endv) :
    (∀ p q : ℝ, p ≤ q → smoothstep delay endv p ≤ smoothstep delay endv q) ∧
    (∀ p : ℝ, p ≤ delay → smoothstep delay endv p = 0) ∧
    (∀ p : ℝ, endv ≤ p → smoothstep delay endv p = 1) :=
  ⟨fun _ _ h => smoothstep_mono hde h,
   fun _ hp => smoothstep_of_le hde hp,
   fun _ hp => smoothstep_of_ge hde hp⟩

/-- Witness for C3 at the window `(delay, end) = (0, 2/5)`. -/
theorem assembly_progress_monotone_witness :
    smoothstep 0 (2/5) (1/5) ≤ smoothstep 0 (2/5) (3/10) ∧
    smoothstep 0 (2/5) (-1) = 0 ∧ smoothstep 0 (2/5) 1 = 1 :=
  ⟨(assembly_progress_monotone 0 (2/5) (by norm_num)).1 _ _ (by norm_num),
   (assembly_progress_monotone 0 (2/5) (by norm_num)).2.1 _ (by norm_num),
   (assembly_progress_monotone 0 (2/5) (by norm_num)).2.2 _ (by norm_num)⟩

/-! ## Render-mode controller (scroll handler, lines 898-924; initial
material state from `initParticles`, lines 850-854)

The scroll handler computes
`blendProgress = Math.max(0, Math.min(1, (progress - 35) / 30))` from the
scroll percentage and then switches the blending mode of the material and
depth-write flag through a hysteresis window.  All arithmetic here is
rational, so it is modelled over `ℚ`. -/

/-- `THREE.AdditiveBlending` / `THREE.NormalBlending`. -/
inductive Blending where
  | additive
  | normal
deriving DecidableEq

/-- The two material fields the controller mutates. -/
structure RenderMaterial where
  blending : Blending
  depthWrite : Bool
deriving DecidableEq

/-- Material as configured in `initParticles`:
`depthWrite: false`, `blending: THREE.AdditiveBlending`. -/
def initialMaterial : RenderMaterial := ⟨Blending.additive, false⟩

/-- `const blendProgress = Math.max(0, Math.min(1, (progress - 35) / 30));`
where `progress` is the scroll percentage in `[0, 100]`. -/
def blendProgressOf (progress : ℚ) : ℚ := max 0 (min 1 ((progress - 35) / 30))

/-- One scroll update of the blending/depth-write hysteresis machine
(lines 906-924), given the already-derived `blendProgress`. -/
def stepRenderMode (blendProgress : ℚ) (m : RenderMaterial) : RenderMaterial :=
  let m1 :=
    if blendProgress > 0.6 ∧ m.blending = Blending.additive then
      { m with blending := Blending.normal }
    else if blendProgress ≤ 0.4 ∧ m.blending = Blending.normal then
      { m with blending := Blending.additive }
    else m
  if blendProgress > 0.55 ∧ m1.depthWrite = false then
    { m1 with depthWrite := true }
  else if blendProgress ≤ 0.45 ∧ m1.depthWrite = true then
    { m1 with depthWrite := false }
  else m1

theorem stepRenderMode_blending (bp : ℚ) (m : RenderMaterial) :
    (stepRenderMode bp m).blending =
      if bp > 0.6 then Blending.normal
      else if bp ≤ 0.4 then Blending.additive
      else m.blending := by
  rcases m with ⟨bl, dw⟩
  cases bl <;> cases dw <;>
    simp only [stepRenderMode] <;> split_ifs <;> simp_all <;> linarith

theorem stepRenderMode_depthWrite (bp : ℚ) (m : RenderMaterial) :
    (stepRenderMode bp m).depthWrite =
      if bp > 0.55 then true
      else if bp ≤ 0.45 then false
      else m.depthWrite := by
  rcases m with ⟨bl, dw⟩
  cases bl <;> cases dw <;>
    simp only [stepRenderMode] <;> split_ifs <;> simp_all <;> linarith

/-- C4: the controller starts in `(Additive, depthWrite = false)`;
`blendProgress` is the clamped `(progress - 35) / 30`; a step switches
Additive to Normal exactly when `blendProgress > 0.6`, Normal to
Additive exactly when `blendProgress <= 0.4`, turns depth-write on
exactly when `blendProgress > 0.55` and off exactly when
`blendProgress <= 0.45`; no other transition changes the two fields. -/
theorem render_mode_transitions :
    (initialMaterial.blending = Blending.additive ∧ initialMaterial.depthWrite = false) ∧
    (∀ progress : ℚ, blendProgressOf progress = max 0 (min 1 ((progress - 35) / 30))) ∧
    (∀ (bp : ℚ) (m : RenderMaterial),
      (m.blending = Blending.additive →
        ((stepRenderMode bp m).blending = Blending.normal ↔ bp > 0.6)) ∧
      (m.blending = Blending.normal →
        ((stepRenderMode bp m).blending = Blending.additive ↔ bp ≤ 0.4)) ∧
      (m.depthWrite = false →
        ((stepRenderMode bp m).depthWrite = true ↔ bp > 0.55)) ∧
      (m.depthWrite = true →
        ((stepRenderMode bp m).depthWrite = false ↔ bp ≤ 0.45))) := by
  refine ⟨⟨rfl, rfl⟩, fun _ => rfl, fun bp m => ⟨?_, ?_, ?_, ?_⟩⟩ <;> intro h
  · rw [stepRenderMode_blending]
    split_ifs with h1 h2 <;> simp_all
  · rw [stepRenderMode_blending]
    split_ifs with h1 h2 <;> simp_all
    linarith
  · rw [stepRenderMode_depthWrite]
    split_ifs with h1 h2 <;> simp_all
  · rw [stepRenderMode_depthWrite]
    split_ifs with h1 h2 <;> simp_all
    linarith

/-- Witness for C4: from the initial state, `blendProgress = 0.7`
switches the blending mode to Normal. -/
theorem render_mode_transitions_witness :
    (stepRenderMode (7/10) initialMaterial).blending = Blending.normal :=
  ((render_mode_transitions.2.2 (7/10) initialMaterial).1 rfl).mpr (by norm_num)

/-- Folding the controller over a whole sequence of scroll-percentage
inputs (one `stepRenderMode` per scroll event). -/
def runRenderMode (inputs : List ℚ) (m : RenderMaterial) : RenderMaterial :=
  inputs.foldl (fun s progress => stepRenderMode (blendProgressOf progress) s) m

/-- C5: a progress sequence whose derived `blendProgress` values all stay
strictly inside `(0.4, 0.6)` never changes the blending mode, from either
starting mode. -/
theorem hysteresis_no_chatter (inputs : List ℚ) (m : RenderMaterial)
    (h : ∀ p ∈ inputs, 0.4 < blendProgressOf p ∧ blendProgressOf p < 0.6) :
    (runRenderMode inputs m).blending = m.blending := by
  induction inputs generalizing m with
  | nil => rfl
  | cons a t ih =>
    have ha := h a (List.mem_cons_self a t)
    have hstep : (stepRenderMode (blendProgressOf a) m).blending = m.blending := by
      rw [stepRenderMode_blending, if_neg (by linarith [ha.2]), if_neg (by linarith [ha.1])]
    have htail : (runRenderMode t (stepRenderMode (blendProgressOf a) m)).blending =
        (stepRenderMode (blendProgressOf a) m).blending :=
      ih _ (fun p hp => h p (List.mem_cons_of_mem a hp))
    calc (runRenderMode (a :: t) m).blending
        = (runRenderMode t (stepRenderMode (blendProgressOf a) m)).blending := rfl
      _ = m.blending := by rw [htail, hstep]

/-- Witness for C5: the oscillating scroll sequence 47.5%, 50.5%, 47.5%,
50.5% (blend progress about 0.417 and 0.517) leaves the initial additive
mode unchanged. -/
theorem hysteresis_no_chatter_witness :
    (runRenderMode [47.5, 50.5, 47.5, 50.5] initialMaterial).blending = Blending.additive :=
  hysteresis_no_chatter [47.5, 50.5, 47.5, 50.5] initialMaterial
    (by intro p hp; fin_cases hp <;> norm_num [blendProgressOf, min_def, max_def])

/-! ## Secondary rotation controller (scroll handler, lines 927-982)

For scroll percentage `progress >= 60` the Y rotation follows a
two-phase eased curve (cubic ease-out on 60-80%, quadratic ease-in on
80-100%), the X rotation a cubic ease-in starting at 80%; below 60% the
rotation resets hard to zero. -/

/-- `const maxRotationX = -5 * (Math.PI / 180);` -/
noncomputable def maxRotationX : ℝ := -5 * (Real.pi / 180)

/-- `const maxRotationY = 20 * (Math.PI / 180);` -/
noncomputable def maxRotationY : ℝ := 20 * (Real.pi / 180)

/-- `const phase1Progress = progress < 80 ? (progress - 60) / 20 : 1.0;` -/
noncomputable def phase1ProgressOf (progress : ℝ) : ℝ :=
  if progress < 80 then (progress - 60) / 20 else 1

/-- The raw two-phase Y easing curve `yEasedProgress` (lines 939-950). -/
noncomputable def yEasedProgressOf (progress : ℝ) : ℝ :=
  if progress < 80 then
    0.5 * (3 * phase1ProgressOf progress ^ 2 - 2 * phase1ProgressOf progress ^ 3)
  else
    0.5 + 0.5 * ((progress - 80) / 20) ^ 2

/-- `easedProgress = Math.min(1.0, Math.max(0, yEasedProgress));` -/
noncomputable def easedProgressOf (progress : ℝ) : ℝ :=
  min 1 (max 0 (yEasedProgressOf progress))

/-- The X rotation easing, `0` below 80% scroll, then a clamped cubic
ease-in `((progress - 80) / 20)^3` (lines 956-966). -/
noncomputable def xRotationProgressOf (progress : ℝ) : ℝ :=
  if progress ≥ 80 then min 1 (max 0 (((progress - 80) / 20) ^ 3)) else 0

/-- The full rotation assigned to `particles.rotation`: eased values
scaled by the max angles above 60% scroll, hard zero below. -/
noncomputable def computeRotation (progress : ℝ) : Vec3 :=
  if progress ≥ 60 then
    ⟨maxRotationX * xRotationProgressOf progress,
     maxRotationY * easedProgressOf progress, 0⟩
  else ⟨0, 0, 0⟩

theorem yEasedProgressOf_continuousAt_80 : ContinuousAt yEasedProgressOf 80 := by
  rw [continuousAt_iff_continuous_left_right]
  constructor
  · apply ContinuousWithinAt.congr
      (f := fun p : ℝ => 0.5 * (3 * ((p - 60) / 20) ^ 2 - 2 * ((p - 60) / 20) ^ 3))
    · exact (Continuous.continuousWithinAt (by continuity))
    · intro y hy
      rcases lt_or_eq_of_le (Set.mem_Iic.mp hy) with hlt | heq
      · simp [yEasedProgressOf, phase1ProgressOf, if_pos hlt]
      · subst heq
        norm_num [yEasedProgressOf, phase1ProgressOf]
    · norm_num [yEasedProgressOf, phase1ProgressOf]
  · apply ContinuousWithinAt.congr
      (f := fun p : ℝ => 0.5 + 0.5 * ((p - 80) / 20) ^ 2)
    · exact (Continuous.continuousWithinAt (by continuity))
    · intro y hy
      have : ¬ y < 80 := not_lt.mpr (Set.mem_Ici.mp hy)
      simp [yEasedProgressOf, this]
    · norm_num [yEasedProgressOf]

/-- C6: the secondary Y-rotation curve is continuous at the
phase-1/phase-2 boundary (80% scroll): the phase-1 cubic evaluated at
`p = 1` and the phase-2 quadratic at `q = 0` both give half the max Y
rotation, and the Y component of `computeRotation` is continuous at the
boundary, so values just below and just above it differ by less than any
fixed epsilon in the limit. -/
theorem rotation_phase_continuity :
    (0.5 * (3 * (1:ℝ) ^ 2 - 2 * (1:ℝ) ^ 3) = 0.5 ∧ 0.5 + 0.5 * (0:ℝ) ^ 2 = 0.5) ∧
    (computeRotation 80).y = maxRotationY * 0.5 ∧
    ContinuousAt (fun p => (computeRotation p).y) 80 := by
  refine ⟨⟨by norm_num, by norm_num⟩, ?_, ?_⟩
  · norm_num [computeRotation, easedProgressOf, yEasedProgressOf]
  · have hev : (fun p => (computeRotation p).y) =ᶠ[nhds (80:ℝ)]
        fun p => maxRotationY * easedProgressOf p := by
      filter_upwards [eventually_gt_nhds (show (60:ℝ) < 80 by norm_num)] with p hp
      simp [computeRotation, if_pos (le_of_lt hp)]
    have hy : ContinuousAt (fun p => maxRotationY * easedProgressOf p) 80 := by
      apply ContinuousAt.mul continuousAt_const
      exact Filter.Tendsto.min tendsto_const_nhds
        (Filter.Tendsto.max tendsto_const_nhds yEasedProgressOf_continuousAt_80)
    exact hy.congr hev.symm

/-! ## Scroll progress mapping (scroll handler, lines 874-891)

`progress = scrollY / (scrollHeight - innerHeight) * 100` and
`uProgress.value = progress / 100`.  There is no clamping on this path:
only `blendProgress` (render-mode controller) and the rotation easings
are clamped. -/

/-- The scroll percentage computed at lines 878-880. -/
def progressPercentOf (scrollY scrollHeight innerHeight : ℚ) : ℚ :=
  scrollY / (scrollHeight - innerHeight) * 100

/-- `particles.material.uniforms.uProgress.value = progress / 100;`
(line 891) — the value handed to the vertex shader. -/
def uProgressOf (progress : ℚ) : ℚ := progress / 100

/-- Counterexample to C8: an out-of-range scroll input
(`scrollY = 1200` against a scrollable height of `1000`) produces
`uProgress = 1.2`, handed to the phase-scheduling / motion-blending
stages unclamped, so the claimed clamp to `[0,1]` before every stage
does not exist. -/
theorem progress_unclamped_counterexample :
    uProgressOf (progressPercentOf 1200 1100 100) = 6/5 ∧
    ¬ uProgressOf (progressPercentOf 1200 1100 100) ≤ 1 := by
  norm_num [uProgressOf, progressPercentOf]

/-- C8 amended: the raw scroll-derived progress is passed to the shader
stages as `progress / 100` with no clamping, while the render-mode
blendProgress of the render-mode controller and the eased values of the rotation controller
are each clamped to `[0,1]`. -/
theorem progress_clamping_amended :
    (∀ progress : ℚ, uProgressOf progress = progress / 100) ∧
    (∀ progress : ℚ, 0 ≤ blendProgressOf progress ∧ blendProgressOf progress ≤ 1) ∧
    (∀ progress : ℝ, 0 ≤ easedProgressOf progress ∧ easedProgressOf progress ≤ 1 ∧
      0 ≤ xRotationProgressOf progress ∧ xRotationProgressOf progress ≤ 1) := by
  refine ⟨fun _ => rfl, fun progress => ⟨le_max_left 0 _, ?_⟩, fun progress => ⟨?_, ?_, ?_, ?_⟩⟩
  · exact max_le (by norm_num) (min_le_left _ _)
  · exact le_min zero_le_one (le_max_left 0 _)
  · exact min_le_left _ _
  · unfold xRotationProgressOf
    split_ifs
    · exact le_min zero_le_one (le_max_left 0 _)
    · exact le_rfl
  · unfold xRotationProgressOf
    split_ifs
    · exact min_le_left _ _
    · exact zero_le_one

/-! ## Placement stage composition order (C9) -/

theorem mulVecM_matMul (A B : Mat3) (v : Vec3) :
    mulVecM (matMul A B) v = mulVecM A (mulVecM B v) := by
  cases A; cases B; cases v
  simp only [matMul, mulVecM, Vec3.mk.injEq]
  refine ⟨by ring, by ring, by ring⟩

/-- The placement stage as claim C9 words it: offset first, then the
matrix `rotateX(ax) * rotateY(ay) * rotateZ(az)` — for comparison with
the `rotateZ * rotateY * rotateX` order of the code. -/
noncomputable def claimStaticPositionOf (u : Uniforms) (position : Vec3) : Vec3 :=
  let waveStrength := waveStrengthOf u.uProgress
  let staticPosition :=
    Vec3.add position (Vec3.scale waveStrength (waveDisplacementOf position u.uTime))
  mulVecM
    (matMul (matMul (rotateX u.uWaveRotationX) (rotateY u.uWaveRotationY))
      (rotateZ u.uWaveRotationZ))
    (Vec3.add staticPosition (offsetVecOf u))

/-- Counterexample to C9: with rotation uniforms `(pi/2, pi/2, 0)`, zero
offsets, `uProgress = 0.3` (wave strength exactly 0) and input position
`(0, 1, 0)`, the placement in the shader (`rotateZ * rotateY * rotateX`)
yields `(1, 0, 0)` while the claimed `rotateX * rotateY * rotateZ`
matrix yields `(0, 0, -1)`. -/
theorem placement_order_counterexample :
    staticPositionOf ⟨0.3, 0, 0, 0, 0, Real.pi / 2, Real.pi / 2, 0⟩ ⟨0, 1, 0⟩ ≠
      claimStaticPositionOf ⟨0.3, 0, 0, 0, 0, Real.pi / 2, Real.pi / 2, 0⟩ ⟨0, 1, 0⟩ := by
  have hws : waveStrengthOf 0.3 = 0 := by
    unfold waveStrengthOf
    rw [smoothstep_of_ge (by norm_num) (by norm_num)]
    ring
  unfold staticPositionOf claimStaticPositionOf
  simp only [hws, Vec3.scale, Vec3.add, offsetVecOf, rotMatrixOf, matMul, mulVecM,
    rotateX, rotateY, rotateZ, glslMat3, Real.cos_pi_div_two, Real.sin_pi_div_two,
    Real.cos_zero, Real.sin_zero, Vec3.mk.injEq, ne_eq]
  norm_num

/-- C9 amended: the placement stage adds the offset vector first and
then applies the matrix `rotateZ(az) * rotateY(ay) * rotateX(ax)`
(line 206), which acts on vectors as the composition
rotateZ after rotateY after rotateX — i.e. `rotateX` is applied first,
the reverse of the claimed order. -/
theorem placement_order_amended (u : Uniforms) (position : Vec3) :
    staticPositionOf u position =
      mulVecM (rotateZ u.uWaveRotationZ)
        (mulVecM (rotateY u.uWaveRotationY)
          (mulVecM (rotateX u.uWaveRotationX)
            (Vec3.add
              (Vec3.add position
                (Vec3.scale (waveStrengthOf u.uProgress)
                  (waveDisplacementOf position u.uTime)))
              (offsetVecOf u)))) := by
  unfold staticPositionOf rotMatrixOf
  rw [mulVecM_matMul, mulVecM_matMul]

/-! ## Dataset construction (`initParticles`, lines 650-822)

The source arrays are fixed-size buffers created at startup
(lines 541-544): `positions` and `gridColors` of length `2754 * 3` and
`particleSizes` of length `2754`.  `initParticles` truncates to
`adjustedCount = min(particlesCount, targetVertexCount)` and copies /
derives every per-particle attribute with indices below that count.
Array reads are modelled with `List` lookups returning `Option`, so a
successful (`some`) construction is exactly an out-of-bounds-free run.
`Math.random()` is modelled by an arbitrary per-index value `rand i`. -/

/-- `const particlesCount = 2754;` -/
def particlesCount : ℕ := 2754

/-- `const targetVertexCount = xShape.array.length / 3;` -/
def targetVertexCountOf (xArr : List ℝ) : ℕ := xArr.length / 3

/-- `const adjustedCount = Math.min(particlesCount, targetVertexCount);` -/
def adjustedCountOf (xArr : List ℝ) : ℕ :=
  min particlesCount (targetVertexCountOf xArr)

/-- The global source buffers read by `initParticles`. -/
structure SrcArrays where
  positions : List ℝ
  particleSizes : List ℝ
  gridColors : List ℝ

/-- One particle of the built dataset: copied grid position and size,
rotated target position, target size and target color. -/
structure Particle where
  position : Vec3
  gridSize : ℝ
  targetPosition : Vec3
  targetSize : ℝ
  color : Vec3

/-- `new THREE.Color("#0452D5")` — the dark blue of the palette. -/
noncomputable def darkBlue : Vec3 := ⟨4 / 255, 82 / 255, 213 / 255⟩

/-- `new THREE.Color("#63BEF4")` — the light blue of the palette. -/
noncomputable def lightBlue : Vec3 := ⟨99 / 255, 190 / 255, 244 / 255⟩

/-- `THREE.Color.lerpColors(c1, c2, alpha)`: componentwise
`c1 + (c2 - c1) * alpha`. -/
noncomputable def lerpColors (c1 c2 : Vec3) (alpha : ℝ) : Vec3 :=
  ⟨c1.x + (c2.x - c1.x) * alpha,
   c1.y + (c2.y - c1.y) * alpha,
   c1.z + (c2.z - c1.z) * alpha⟩

/-- Read the three consecutive entries `arr[3i] .. arr[3i+2]` of a flat
vec3 buffer. -/
def readV3 (arr : List ℝ) (i : ℕ) : Option Vec3 := do
  let a ← arr[3 * i]?
  let b ← arr[3 * i + 1]?
  let c ← arr[3 * i + 2]?
  pure ⟨a, b, c⟩

/-- The body of the `initParticles` copy loop (lines 671-808) for
particle `i`: grid position/size copy, target rotation, front/side/back
classification, size and color derivation. -/
noncomputable def buildParticleInit (src : SrcArrays) (xArr : List ℝ)
    (rand : ℕ → ℝ) (i : ℕ) : Option Particle := do
  let position ← readV3 src.positions i
  let gridSize ← src.particleSizes[i]?
  let targetX ← xArr[3 * i]?
  let targetY ← xArr[3 * i + 1]?
  let targetZ ← xArr[3 * i + 2]?
  let isFront := targetZ > 0.1
  let isBack := targetZ < -0.1
  let angleY := Real.pi * 0.15
  let cosY := Real.cos angleY
  let sinY := Real.sin angleY
  let angleX := Real.pi * 0.03
  let cosX := Real.cos angleX
  let sinX := Real.sin angleX
  let rotatedX := targetX * cosY - targetZ * sinY
  let rotatedZ := targetX * sinY + targetZ * cosY
  let finalY := targetY * cosX + rotatedZ * sinX
  let finalZ := -targetY * sinX + rotatedZ * cosX
  let distFromCenterXY := Real.sqrt (rotatedX * rotatedX + finalY * finalY)
  let normalizedDist := min (distFromCenterXY / 0.5) 1
  let particleSize :=
    if isFront then 0.8 + normalizedDist * 0.5 + rand i * 0.1
    else 0.7 + rand i * 0.1
  let color :=
    if isBack then darkBlue
    else if isFront then
      let enhancedGradient :=
        if normalizedDist < 0.3 then normalizedDist * 0.3
        else if normalizedDist < 0.5 then 0.09 + ((normalizedDist - 0.3) / 0.2) * 0.71
        else 0.8 + (normalizedDist - 0.5) * 0.4
      lerpColors darkBlue lightBlue enhancedGradient
    else
      let normalizedZPos := (targetZ + 0.1) / 0.2
      let sideGradientRaw :=
        if normalizedDist > 0.5 then
          normalizedZPos ^ ((0.5:ℝ)) * (0.6 + ((normalizedDist - 0.5) * 2) * 0.4)
        else normalizedZPos ^ ((0.7:ℝ)) * 0.5
      let sideGradient := max sideGradientRaw (normalizedZPos * 0.8)
      lerpColors darkBlue lightBlue sideGradient
  pure ⟨position, gridSize, ⟨rotatedX, finalY, finalZ⟩, particleSize, color⟩

/-- Run `f` on every element, failing if any application fails
(the `Option`-level image of an in-bounds loop). -/
def mapOptionAll {α β : Type} (f : α → Option β) : List α → Option (List β)
  | [] => some []
  | a :: t => do
    let b ← f a
    let t' ← mapOptionAll f t
    pure (b :: t')

/-- `initParticles`: build the truncated dataset
(loop at lines 671-808) and the truncated copy of the global grid-color
buffer (loop at lines 818-821). -/
noncomputable def initParticles (src : SrcArrays) (xArr : List ℝ)
    (rand : ℕ → ℝ) : Option (List Particle × List ℝ) := do
  let dataset ← mapOptionAll (buildParticleInit src xArr rand)
    (List.range (adjustedCountOf xArr))
  let adjustedGridColors ← mapOptionAll (fun j => src.gridColors[j]?)
    (List.range (3 * adjustedCountOf xArr))
  pure (dataset, adjustedGridColors)

theorem mapOptionAll_length {α β : Type} (f : α → Option β) (l : List α)
    (h : ∀ a ∈ l, (f a).isSome) :
    ∃ l', mapOptionAll f l = some l' ∧ l'.length = l.length := by
  induction l with
  | nil => exact ⟨[], rfl, rfl⟩
  | cons a t ih =>
    obtain ⟨b, hb⟩ := Option.isSome_iff_exists.mp (h a (List.mem_cons_self a t))
    obtain ⟨t', ht', hlen⟩ := ih (fun x hx => h x (List.mem_cons_of_mem a hx))
    exact ⟨b :: t', by simp [mapOptionAll, hb, ht'], by simp [hlen]⟩

theorem readV3_isSome {arr : List ℝ} {i : ℕ} (h : 3 * i + 2 < arr.length) :
    (readV3 arr i).isSome := by
  have h0 : 3 * i < arr.length := by omega
  have h1 : 3 * i + 1 < arr.length := by omega
  simp [readV3, List.getElem?_eq_getElem, h0, h1, h]

theorem buildParticleInit_isSome (src : SrcArrays) (xArr : List ℝ)
    (rand : ℕ → ℝ) {i : ℕ}
    (hp : 3 * i + 2 < src.positions.length)
    (hs : i < src.particleSizes.length)
    (ht : 3 * i + 2 < xArr.length) :
    (buildParticleInit src xArr rand i).isSome := by
  obtain ⟨v, hv⟩ := Option.isSome_iff_exists.mp (readV3_isSome hp)
  have ht0 : 3 * i < xArr.length := by omega
  have ht1 : 3 * i + 1 < xArr.length := by omega
  simp [buildParticleInit, hv, List.getElem?_eq_getElem, hs, ht0, ht1, ht]

/-- C7: dataset construction truncates to
`min(particlesCount, targetVertexCount)`; with the startup buffer sizes
(`2754` particles) and a target buffer of `2000` vertices every read of
the origin-position, size, grid-color and target arrays stays in bounds
(the `Option`-valued run returns `some`), and the resulting dataset has
exactly `2000` particles. -/
theorem dataset_truncation (src : SrcArrays) (xArr : List ℝ) (rand : ℕ → ℝ)
    (hpos : src.positions.length = 3 * 2754)
    (hsiz : src.particleSizes.length = 2754)
    (hgc : src.gridColors.length = 3 * 2754)
    (htar : xArr.length = 3 * 2000) :
    (∀ ys : List ℝ, adjustedCountOf ys = min 2754 (ys.length / 3)) ∧
    adjustedCountOf xArr = 2000 ∧
    ∃ dataset gridColorCopy,
      initParticles src xArr rand = some (dataset, gridColorCopy) ∧
      dataset.length = 2000 ∧ gridColorCopy.length = 3 * 2000 := by
  have hcount : adjustedCountOf xArr = 2000 := by
    simp [adjustedCountOf, targetVertexCountOf, particlesCount, htar]
  have hall : ∀ i ∈ List.range (adjustedCountOf xArr),
      (buildParticleInit src xArr rand i).isSome := by
    intro i hi
    rw [List.mem_range, hcount] at hi
    refine buildParticleInit_isSome src xArr rand ?_ ?_ ?_
    · rw [hpos]; omega
    · rw [hsiz]; omega
    · rw [htar]; omega
  have hall2 : ∀ j ∈ List.range (3 * adjustedCountOf xArr),
      (src.gridColors[j]?).isSome := by
    intro j hj
    rw [List.mem_range, hcount] at hj
    have hlt : j < src.gridColors.length := by rw [hgc]; omega
    simp [List.getElem?_eq_getElem hlt]
  obtain ⟨dataset, hds, hdslen⟩ :=
    mapOptionAll_length (buildParticleInit src xArr rand)
      (List.range (adjustedCountOf xArr)) hall
  obtain ⟨gcs, hgcs, hgclen⟩ :=
    mapOptionAll_length (fun j => src.gridColors[j]?)
      (List.range (3 * adjustedCountOf xArr)) hall2
  refine ⟨fun _ => rfl, hcount, dataset, gcs, ?_, ?_, ?_⟩
  · simp [initParticles, hds, hgcs]
  · rw [hdslen, List.length_range, hcount]
  · rw [hgclen, List.length_range, hcount]

/-- Witness for C7 at concrete buffers of the exact startup sizes. -/
theorem dataset_truncation_witness :
    (∀ ys : List ℝ, adjustedCountOf ys = min 2754 (ys.length / 3)) ∧
    adjustedCountOf (List.replicate (3 * 2000) (0:ℝ)) = 2000 ∧
    ∃ dataset gridColorCopy,
      initParticles
          ⟨List.replicate (3 * 2754) 0, List.replicate 2754 0, List.replicate (3 * 2754) 0⟩
          (List.replicate (3 * 2000) 0) (fun _ => 0) = some (dataset, gridColorCopy) ∧
      dataset.length = 2000 ∧ gridColorCopy.length = 3 * 2000 :=
  dataset_truncation
    ⟨List.replicate (3 * 2754) 0, List.replicate 2754 0, List.replicate (3 * 2754) 0⟩
    (List.replicate (3 * 2000) 0) (fun _ => 0)
    (by rw [List.length_replicate]) (by rw [List.length_replicate])
    (by rw [List.length_replicate]) (by rw [List.length_replicate])

/-! ## Particle regeneration (`regenerateParticles`, lines 1252-1367)

`regenerateParticles` rewrites the `position`, `aGridColor` and `aSize`
buffer attributes in place (one write of three components per particle
for the vec3 buffers, one scalar per particle for the sizes), after
saving `uProgress`, `uBlendTransition`, the blending mode and the
depth-write flag, which it restores at the end.  The observable material
and geometry state is modelled as one record; the in-place writes are
modelled with `List.set`. -/

/-- The observable state of the particle system touched or preserved by
`regenerateParticles`: the six geometry buffers and the animation /
material state. -/
structure ParticlesState where
  positions : List ℝ
  gridColors : List ℝ
  sizes : List ℝ
  targetPositions : List ℝ
  targetSizes : List ℝ
  colors : List ℝ
  uProgress : ℝ
  uBlendTransition : ℝ
  blending : Blending
  depthWrite : Bool

/-- The wave-density parameters read by the regeneration loop. -/
structure WaveDensity where
  waveWidthFactor : ℝ
  waveDepthFactor : ℝ
  waveZOffset : ℝ

/-- `Math.ceil(Math.sqrt(n))` on a natural number. -/
def natCeilSqrt (n : ℕ) : ℕ :=
  if Nat.sqrt n * Nat.sqrt n = n then Nat.sqrt n else Nat.sqrt n + 1

/-- The body of the regeneration loop (lines 1277-1355) for particle
`i`: recompute the grid position, grid color and grid size and write
them into the three grid buffers. -/
noncomputable def regenStep (cfg : WaveDensity) (rand : ℕ → ℝ) (gridSize : ℕ)
    (st : ParticlesState) (i : ℕ) : ParticlesState :=
  let row : ℕ := i / gridSize
  let col : ℕ := i % gridSize
  let x : ℝ := ((col : ℝ) / (gridSize : ℝ) - 0.5) * cfg.waveWidthFactor
  let z : ℝ := ((row : ℝ) / (gridSize : ℝ) - 0.5) * cfg.waveDepthFactor
  let normalizedZ : ℝ := min 1 (max 0 ((z - (-3.0)) / (3.0 - (-3.0))))
  let enhancedZ : ℝ := normalizedZ ^ ((2.5:ℝ))
  let gridColor : Vec3 :=
    if normalizedZ < 0.5 then
      lerpColors darkBlue ⟨0, 0, 0⟩ ((1 - normalizedZ / 0.5) ^ ((1.5:ℝ)))
    else lerpColors darkBlue lightBlue enhancedZ
  let y : ℝ := Real.sin (x * Real.pi - Real.pi / 2) * 0.18 + 0.25 * (x * x * 2.0) + z * 0.15
  let rotationAngle : ℝ := -16 * (Real.pi / 180)
  let rotatedX : ℝ :=
    x * Real.cos rotationAngle - (z + cfg.waveZOffset) * Real.sin rotationAngle
  let rotatedZ : ℝ :=
    x * Real.sin rotationAngle + (z + cfg.waveZOffset) * Real.cos rotationAngle
  { st with
    positions :=
      ((st.positions.set (3 * i) rotatedX).set (3 * i + 1) (y - 0.2)).set (3 * i + 2) rotatedZ,
    gridColors :=
      ((st.gridColors.set (3 * i) gridColor.x).set (3 * i + 1) gridColor.y).set
        (3 * i + 2) gridColor.z,
    sizes := st.sizes.set i (0.7 + enhancedZ * 0.6 + rand i * 0.1) }

/-- `regenerateParticles`: skip when the particle system does not exist
yet; otherwise save the animation state, rewrite the grid buffers for
every particle index below `positions.length / 3`, and restore the saved
state (lines 1252-1367). -/
noncomputable def regenerateParticles (cfg : WaveDensity) (rand : ℕ → ℝ)
    (particles : Option ParticlesState) : Option ParticlesState :=
  match particles with
  | none => none
  | some st =>
    let currentProgress := st.uProgress
    let currentBlendTransition := st.uBlendTransition
    let currentBlending := st.blending
    let currentDepthWrite := st.depthWrite
    let count := st.positions.length / 3
    let gridSize := natCeilSqrt count
    let st1 := (List.range count).foldl (regenStep cfg rand gridSize) st
    some { st1 with
      uProgress := currentProgress,
      uBlendTransition := currentBlendTransition,
      blending := currentBlending,
      depthWrite := currentDepthWrite }

theorem regenStep_frame (cfg : WaveDensity) (rand : ℕ → ℝ) (gridSize : ℕ)
    (st : ParticlesState) (i : ℕ) :
    (regenStep cfg rand gridSize st i).targetPositions = st.targetPositions ∧
    (regenStep cfg rand gridSize st i).targetSizes = st.targetSizes ∧
    (regenStep cfg rand gridSize st i).colors = st.colors := ⟨rfl, rfl, rfl⟩

theorem regenLoop_frame (cfg : WaveDensity) (rand : ℕ → ℝ) (gridSize : ℕ)
    (l : List ℕ) (st : ParticlesState) :
    (l.foldl (regenStep cfg rand gridSize) st).targetPositions = st.targetPositions ∧
    (l.foldl (regenStep cfg rand gridSize) st).targetSizes = st.targetSizes ∧
    (l.foldl (regenStep cfg rand gridSize) st).colors = st.colors := by
  induction l generalizing st with
  | nil => exact ⟨rfl, rfl, rfl⟩
  | cons a t ih =>
    have hstep := regenStep_frame cfg rand gridSize st a
    have htail := ih (regenStep cfg rand gridSize st a)
    refine ⟨?_, ?_, ?_⟩ <;> simp only [List.foldl_cons]
    · rw [htail.1, hstep.1]
    · rw [htail.2.1, hstep.2.1]
    · rw [htail.2.2, hstep.2.2]

/-- C10: `regenerateParticles` rewrites only the origin-position,
grid-color and grid-size buffers: the target positions, target sizes and
target colors, and the animation state (`uProgress`,
`uBlendTransition`, blending mode, depth-write flag) all hold the same
values after the call as before it; a missing particle system is left
untouched. -/
theorem regenerate_particles_frame (cfg : WaveDensity) (rand : ℕ → ℝ)
    (st : ParticlesState) :
    regenerateParticles cfg rand none = none ∧
    ∃ st', regenerateParticles cfg rand (some st) = some st' ∧
      st'.targetPositions = st.targetPositions ∧
      st'.targetSizes = st.targetSizes ∧
      st'.colors = st.colors ∧
      st'.uProgress = st.uProgress ∧
      st'.uBlendTransition = st.uBlendTransition ∧
      st'.blending = st.blending ∧
      st'.depthWrite = st.depthWrite := by
  have h := regenLoop_frame cfg rand
    (natCeilSqrt (st.positions.length / 3))
    (List.range (st.positions.length / 3)) st
  exact ⟨rfl, _, rfl, h.1, h.2.1, h.2.2, rfl, rfl, rfl, rfl⟩

end Fivr
